import Mathlib

/-!
Shallow embedding of the Borobudur backend geospatial routing engine
(`src/repositories/temple_edges.repository.js` — second, SELECT-only class,
`src/repositories/temple_nodes.repository.js` — TempleFeaturesRepository,
`src/controllers/v2/temples.controller.js`).

JavaScript numbers are modelled as rationals together with the non-finite
values `NaN`, `Infinity`, `-Infinity`; `undefined`/`null` is a distinct value.
PostGIS distance operators are parameters of the model (they are external to
the repository); SQL result assembly is translated statement by statement.
-/

/-- JavaScript primitive values that can appear in coordinate arrays and as
elevation arguments: finite numbers (as rationals), the non-finite numbers
`NaN`, `Infinity`, `-Infinity`, and `undefined` (which also stands for `null`;
the code treats the two identically, via `??`). -/
inductive JSVal where
  | num (q : ℚ)
  | nan
  | inf
  | ninf
  | undef
deriving DecidableEq

/-- JS `typeof v === "number"` — true for every JS number, including `NaN` and
the infinities. -/
def JSVal.isNumber : JSVal → Bool
  | .num _ => true
  | .nan => true
  | .inf => true
  | .ninf => true
  | .undef => false

/-- JS `Number.isFinite(v)`. -/
def JSVal.isFinite : JSVal → Bool
  | .num _ => true
  | _ => false

/-- The rational carried by a finite JS number (only meaningful under
`isFinite`). -/
def JSVal.toQ : JSVal → ℚ
  | .num q => q
  | _ => 0

/-- JavaScript truthiness restricted to the values of `JSVal`:
`0`, `NaN` and `undefined`/`null` are falsy. -/
def JSVal.isTruthy : JSVal → Bool
  | .num q => q ≠ 0
  | .nan => false
  | .inf => true
  | .ninf => true
  | .undef => false

/-- The nullish-coalescing operator `v ?? d`: replaces only
`undefined`/`null`, never `NaN` or the infinities. -/
def jsCoalesce (v d : JSVal) : JSVal :=
  if v = .undef then d else v

/-- JS `Math.round x` for a finite argument: round half toward positive
infinity. -/
def jsRound (q : ℚ) : ℤ := ⌊q + 1/2⌋

instance {ε α : Type} [DecidableEq ε] [DecidableEq α] :
    DecidableEq (Except ε α) := fun a b =>
  match a, b with
  | .error e1, .error e2 =>
    if h : e1 = e2 then .isTrue (by rw [h])
    else .isFalse (fun hc => h (by cases hc; rfl))
  | .error e1, .ok b1 => .isFalse (fun hc => Except.noConfusion hc)
  | .ok a1, .error e2 => .isFalse (fun hc => Except.noConfusion hc)
  | .ok a1, .ok b1 =>
    if h : a1 = b1 then .isTrue (by rw [h])
    else .isFalse (fun hc => h (by cases hc; rfl))

/-- A GeoJSON `coordinates` value: a nested array whose leaves are JS
values. A coordinate tuple is an array whose first element is a number. -/
inductive Coords where
  | leaf (v : JSVal)
  | arr (elems : List Coords)

/-- JS `typeof coords[0] === "number"` on the element list of an array:
false for the empty array (`coords[0]` is `undefined`) and for a nested
array head. -/
def Coords.headIsNumber : List Coords → Bool
  | .leaf v :: _ => v.isNumber
  | _ => false

/-- An array value is always truthy; a primitive is truthy per `JSVal`. -/
def Coords.isTruthy : Coords → Bool
  | .leaf v => v.isTruthy
  | .arr _ => true

mutual
/-- Embeds `addZConst` from `to3DGeometry` (temples.controller.js):
non-arrays are returned as-is; an array whose first element is a number is a
coordinate tuple and becomes `[x, y, zFinal]` with
`zFinal = coords.length >= 3 ? coords[2] : (zConst ?? 0)`; any other array is
mapped recursively. -/
def addZConst (c : Coords) (zConst : JSVal) : Coords :=
  match c with
  | .leaf v => .leaf v
  | .arr elems =>
    if Coords.headIsNumber elems then
      let x := elems.getD 0 (.leaf .undef)
      let y := elems.getD 1 (.leaf .undef)
      let zF :=
        if 3 ≤ elems.length then elems.getD 2 (.leaf .undef)
        else .leaf (jsCoalesce zConst (.num 0))
      .arr [x, y, zF]
    else .arr (addZConstList elems zConst)

/-- Pointwise `addZConst` over the elements of a nested coordinate array
(the `coords.map((c) => addZConst(c, zConst))` branch). -/
def addZConstList (cs : List Coords) (zConst : JSVal) : List Coords :=
  match cs with
  | [] => []
  | c :: rest => addZConst c zConst :: addZConstList rest zConst
end

/-- Models `coords.map((pt, i) => f(i, pt))` — JavaScript `Array.prototype.map`
with the element index, starting the index at `k`. -/
def mapWithIndex {α β : Type} (f : ℕ → α → β) : ℕ → List α → List β
  | _, [] => []
  | i, a :: as => f i a :: mapWithIndex f (i + 1) as

/-- The per-vertex body of `addZInterpolatedLine`: a non-array or too-short
vertex is returned unchanged; otherwise the vertex becomes
`[x, y, pt.length >= 3 ? pt[2] : zi]` where `zi = z0 + (z1 - z0) * t` and
`t = n == 1 ? 0 : i / (n - 1)`. -/
def interpVertex (z0 z1 : ℚ) (n : ℕ) (i : ℕ) (pt : Coords) : Coords :=
  match pt with
  | .leaf v => .leaf v
  | .arr ptElems =>
    if ptElems.length < 2 then .arr ptElems
    else
      let t : ℚ := if n = 1 then 0 else (i : ℚ) / ((n : ℚ) - 1)
      let zi := z0 + (z1 - z0) * t
      .arr [ptElems.getD 0 (.leaf .undef), ptElems.getD 1 (.leaf .undef),
            if 3 ≤ ptElems.length then ptElems.getD 2 (.leaf .undef)
            else .leaf (.num zi)]

/-- Embeds `addZInterpolatedLine` from `to3DGeometry` (temples.controller.js):
`z0 = Number.isFinite(start) ? start : 0`, `z1 = Number.isFinite(end) ? end : z0`,
then each vertex receives the linearly interpolated `zi` unless it already
carries a third component. Non-arrays and the empty array are returned
unchanged. -/
def addZInterpolatedLine (c : Coords) (zStart zEnd : JSVal) : Coords :=
  match c with
  | .leaf v => .leaf v
  | .arr [] => .arr []
  | .arr elems =>
    let z0 : ℚ := if zStart.isFinite then zStart.toQ else 0
    let z1 : ℚ := if zEnd.isFinite then zEnd.toQ else z0
    .arr (mapWithIndex (interpVertex z0 z1 elems.length) 0 elems)

/-- A GeoJSON geometry object as consumed by `to3DGeometry`. -/
structure Geometry where
  type : String
  coordinates : Coords

/-- The options object `{ z, zStart, zEnd }` of `to3DGeometry`; an absent
field is `undefined`. -/
structure ZOpts where
  z : JSVal := .undef
  zStart : JSVal := .undef
  zEnd : JSVal := .undef
deriving DecidableEq

/-- Embeds `to3DGeometry` (temples.controller.js): geometries with a falsy `type`
or falsy `coordinates` are returned untouched; `Point` appends the constant
`z`; `LineString` interpolates when a finite `zStart` or `zEnd` is supplied
and otherwise appends the constant `z`; every other type appends the
constant `z` recursively. -/
def to3DGeometry (geom : Geometry) (opts : ZOpts) : Geometry :=
  if geom.type = "" ∨ Coords.isTruthy geom.coordinates = false then geom
  else if geom.type = "Point" then
    { geom with coordinates := addZConst geom.coordinates opts.z }
  else if geom.type = "LineString" then
    if opts.zStart.isFinite ∨ opts.zEnd.isFinite then
      { geom with coordinates :=
          addZInterpolatedLine geom.coordinates opts.zStart opts.zEnd }
    else { geom with coordinates := addZConst geom.coordinates opts.z }
  else { geom with coordinates := addZConst geom.coordinates opts.z }

/-! ## Data model (temple_nodes / temple_edges / temple_features tables) -/

/-- A row of `temple_nodes`: static reference data. -/
structure Node where
  id : ℤ
  name : String
  altitude_m : Option ℚ
  lon : ℚ
  lat : ℚ
deriving DecidableEq

/-- A row of `temple_edges`. `reverse_cost` may be SQL `NULL` (`none`);
`geom` is the edge polyline. -/
structure Edge where
  id : ℤ
  source : ℤ
  target : ℤ
  cost : ℚ
  reverse_cost : Option ℚ
  geom : List (ℚ × ℚ)
deriving DecidableEq

/-- A row of `temple_features` (joined onto its node). -/
structure TempleFeature where
  id : ℤ
  node_id : ℤ
  type : String
  name : String
  description : String
  image_url : String
  rating : ℚ
deriving DecidableEq

/-- The database state threaded through every query. -/
structure DB where
  nodes : List Node
  edges : List Edge
  features : List TempleFeature
deriving DecidableEq

/-- The PostGIS metric functions used by the SQL in the repositories. They
are external to the repository, so the model takes them as parameters:
`knnDist` is the geometric KNN operator `<->` used in `ORDER BY`,
`geoDist` is `ST_Distance` on `geography`, `sphereDist` is
`ST_DistanceSphere`, and `lineLen` is `ST_Length` on `geography`. -/
structure GeoFns where
  knnDist : ℚ × ℚ → ℚ × ℚ → ℚ
  geoDist : ℚ × ℚ → ℚ × ℚ → ℚ
  sphereDist : ℚ × ℚ → ℚ × ℚ → ℚ
  lineLen : List (ℚ × ℚ) → ℚ

/-! ## TempleEdgesRepository (second, SELECT-only class) -/

namespace TempleEdgesRepository

/-- The constant `static ENTRY_DISTANCE_THRESHOLD_M = 4`. -/
def ENTRY_DISTANCE_THRESHOLD_M : ℚ := 4

/-- The whitespace class `\s` (`[[:space:]]`) of a PostgreSQL regular
expression. -/
def pgSpaceChar (c : Char) : Bool :=
  c = ' ' || c = '\t' || c = '\n' || c = '\x0b' || c = '\x0c' || c = '\r'

/-- The SQL predicate `n.name ~* '^ENTRY(\b|_|\s|$)'`
(`static ENTRY_NAME_PATTERN_SQL`), under PostgreSQL ARE semantics: `~*` is a
case-insensitive match anchored here at the start by `^`; in PostgreSQL `\b`
is the backspace character escape (the word-boundary constraint would be
`\y`), and `\s` is the whitespace class. So a name matches exactly when,
case-folded, it starts with `ENTRY` followed by end-of-string, `_`, a
backspace character, or whitespace. -/
def entryNameMatches (name : String) : Bool :=
  match name.data.map Char.toUpper with
  | 'E' :: 'N' :: 'T' :: 'R' :: 'Y' :: rest =>
    match rest with
    | [] => true
    | c :: _ => c = '_' || c = '\x08' || pgSpaceChar c
  | _ => false

/-- The row shape produced by `getNearestNodeInfo`'s SELECT. -/
structure NodeInfo where
  id : ℤ
  name : String
  altitude_m : Option ℚ
  lon : ℚ
  lat : ℚ
  distance_m : ℚ
deriving DecidableEq

/-- The row shape produced by `getNearestEntryNodeInfo`'s SELECT (it does
not select `altitude_m`). -/
structure EntryInfo where
  id : ℤ
  name : String
  lon : ℚ
  lat : ℚ
  distance_m : ℚ
deriving DecidableEq

/-- The value returned by `resolveStartNode`: either the plain nearest-node
row or an entry-fallback row. -/
inductive StartNode where
  | nearest (n : NodeInfo)
  | entry (e : EntryInfo)
deriving DecidableEq

/-- The `id` field read from the start node by `findRoute`. -/
def StartNode.nodeId : StartNode → ℤ
  | .nearest n => n.id
  | .entry e => e.id

/-- Embeds `getNearestNodeInfo`: `ORDER BY n.geom <-> p.pt LIMIT 1` over all of
`temple_nodes`, reporting `ST_Distance` on `geography` as `distance_m`;
throws when the table is empty. The query is a read of the database. -/
def getNearestNodeInfo (g : GeoFns) (lon lat : ℚ) (db : DB) :
    Except String NodeInfo :=
  match db.nodes.argmin (fun n => g.knnDist (n.lon, n.lat) (lon, lat)) with
  | none => .error "No nodes near the given coordinate"
  | some n =>
    .ok { id := n.id, name := n.name, altitude_m := n.altitude_m,
          lon := n.lon, lat := n.lat,
          distance_m := g.geoDist (n.lon, n.lat) (lon, lat) }

/-- Embeds `getNearestEntryNodeInfo`: same KNN ordering restricted by
`WHERE n.name ~* ENTRY_NAME_PATTERN_SQL`; `rows[0] || null`. -/
def getNearestEntryNodeInfo (g : GeoFns) (lon lat : ℚ) (db : DB) :
    Option EntryInfo :=
  match (db.nodes.filter (fun n => entryNameMatches n.name)).argmin
      (fun n => g.knnDist (n.lon, n.lat) (lon, lat)) with
  | none => none
  | some n =>
    some { id := n.id, name := n.name, lon := n.lon, lat := n.lat,
           distance_m := g.geoDist (n.lon, n.lat) (lon, lat) }

/-- Embeds `resolveStartNode`: nearest node; if its `distance_m` exceeds the
4-meter threshold, prefer the nearest entry node when one exists
(`entry || nearest`). -/
def resolveStartNode (g : GeoFns) (lon lat : ℚ) (db : DB) :
    Except String StartNode :=
  match getNearestNodeInfo g lon lat db with
  | .error e => .error e
  | .ok nearest =>
    if nearest.distance_m > ENTRY_DISTANCE_THRESHOLD_M then
      match getNearestEntryNodeInfo g lon lat db with
      | some entry => .ok (.entry entry)
      | none => .ok (.nearest nearest)
    else .ok (.nearest nearest)

/-- The `to` argument of `findRoute`: a JS integer, the string
`"node:<id>"` (shallowly represented by the id it carries), or anything
else. -/
inductive ToDest where
  | intId (n : ℤ)
  | nodeStr (n : ℤ)
  | invalid
deriving DecidableEq

/-- The `params` object of `findRoute`; `profile` defaults to
`"walking"` when absent. -/
structure RouteParams where
  fromCoord : List ℚ
  toDest : Option ToDest
  toFeaturesId : Option ℤ
  profile : Option String
deriving DecidableEq

/-- Embeds `validateFrom`: `from` must be a two-element array. -/
def validateFrom (fromCoord : List ℚ) : Except String (ℚ × ℚ) :=
  match fromCoord with
  | [a, b] => .ok (a, b)
  | _ => .error "Invalid 'from' format. Must be [lon,lat]"

/-- Embeds `resolveDestination`: an integral `toFeaturesId` is looked up in
`temple_features` (its `node_id` is the destination); otherwise `to` must be
an integer or a `"node:<id>"` string. -/
def resolveDestination (toDest : Option ToDest) (toFeaturesId : Option ℤ)
    (db : DB) : Except String ℤ :=
  match toFeaturesId with
  | some fid =>
    match db.features.find? (fun f => f.id = fid) with
    | some f => .ok f.node_id
    | none => .error ("Feature " ++ toString fid ++ " not found")
  | none =>
    match toDest with
    | some (.intId n) => .ok n
    | some (.nodeStr n) => .ok n
    | _ =>
      .error "Invalid destination. Provide toFeaturesId or to=node:<id>/nodeId"

/-- Traversal direction of an arc relative to its edge's orientation. -/
inductive Dir where
  | forward
  | backward
deriving DecidableEq

/-- One directed arc of the solver's working graph. -/
structure Arc where
  edgeId : ℤ
  src : ℤ
  dst : ℤ
  w : ℚ
  dir : Dir
deriving DecidableEq

/-- Models `COALESCE(reverse_cost, cost)` from the solver's inner SQL. -/
def coalescedReverseCost (e : Edge) : ℚ :=
  e.reverse_cost.getD e.cost

/-- The directed arc set pgRouting builds from
`SELECT id, source, target, cost, COALESCE(reverse_cost, cost) AS reverse_cost`
with `directed = true`: a negative cost disables the forward direction and a
negative (coalesced) reverse cost disables the target→source direction. -/
def arcsOfEdges : List Edge → List Arc
  | [] => []
  | e :: rest =>
    (if 0 ≤ e.cost then [⟨e.id, e.source, e.target, e.cost, .forward⟩] else [])
      ++ (if 0 ≤ coalescedReverseCost e then
            [⟨e.id, e.target, e.source, coalescedReverseCost e, .backward⟩]
          else [])
      ++ arcsOfEdges rest

/-- A priority-queue entry of the Dijkstra search: accumulated cost, current
node, and the arcs taken so far (most recent first). -/
structure PQEntry where
  cost : ℚ
  node : ℤ
  path : List Arc
deriving DecidableEq

/-- Dijkstra with lazy deletion: repeatedly pop a minimum-cost entry;
return when the target is popped; skip already-settled nodes; otherwise
settle the node and push its out-arcs. Fuel bounds the number of pops. -/
def dijkstraAux (arcs : List Arc) (dst : ℤ) :
    ℕ → List ℤ → List PQEntry → Option (List Arc × ℚ)
  | 0, _, _ => none
  | fuel + 1, visited, frontier =>
    match frontier.argmin PQEntry.cost with
    | none => none
    | some e =>
      if e.node = dst then some (e.path.reverse, e.cost)
      else if e.node ∈ visited then
        dijkstraAux arcs dst fuel visited (frontier.erase e)
      else
        dijkstraAux arcs dst fuel (e.node :: visited)
          (frontier.erase e ++ arcs.filterMap (fun a =>
            if a.src = e.node then some ⟨e.cost + a.w, a.dst, a :: e.path⟩
            else none))

/-- Models `pgr_dijkstra(inner-sql, from, to, true)`: the shortest directed path
between two node ids, as the ordered arc list and total cost, or `none`
when no path exists. The fuel exceeds the total number of queue insertions
possible, so it never cuts a search short. -/
def pgrDijkstra (edges : List Edge) (src dst : ℤ) : Option (List Arc × ℚ) :=
  let arcs := arcsOfEdges edges
  dijkstraAux arcs dst (arcs.length * arcs.length + 2 * arcs.length + 2) []
    [⟨0, src, []⟩]

/-- One element of the `segments` JSON array:
`json_build_object('edge_id', id, 'length_m', len_m)`. -/
structure Seg where
  edge_id : ℤ
  length_m : ℚ
deriving DecidableEq

/-- The single row produced by the routing SQL of `routeFromNodeToNode`:
total length, merged route line (SQL `NULL` — `none` — when no edges were
traversed), and the per-edge segment breakdown. -/
structure RouteRow where
  distance_m : ℚ
  geometry : Option (List (List (ℚ × ℚ)))
  segments : List Seg
deriving DecidableEq

/-- Embeds `routeFromNodeToNode`: runs `pgr_dijkstra` (directed, with coalesced
reverse costs), joins the traversed edge rows in sequence order
(`WHERE r.edge <> -1`), and assembles `distance_m = COALESCE(SUM(len_m),0)`,
the merged line (`ST_LineMerge(ST_Union(geom))`, `NULL` over zero rows,
modelled as the ordered list of traversed edge polylines), and the
`segments` array, where `len_m = ST_Length(e.geom::geography)`. -/
def routeFromNodeToNode (g : GeoFns) (fromNodeId toNodeId : ℤ) (db : DB) :
    RouteRow :=
  let edgesUsed : List Edge :=
    match pgrDijkstra db.edges fromNodeId toNodeId with
    | none => []
    | some (path, _) =>
      path.filterMap (fun a => db.edges.find? (fun e => e.id = a.edgeId))
  { distance_m := (edgesUsed.map (fun e => g.lineLen e.geom)).sum,
    geometry := if edgesUsed = [] then none
                else some (edgesUsed.map Edge.geom),
    segments := edgesUsed.map (fun e => ⟨e.id, g.lineLen e.geom⟩) }

/-- Embeds `secondsFromMeters`: profile speed selection and
`Math.round((m || 0) / v)`. -/
def secondsFromMeters (m : ℚ) (profile : String) : ℤ :=
  let v : ℚ :=
    if profile = "walking" then 1.35
    else if profile = "wheelchair" then 1.10
    else if profile = "guided" then 1.20
    else 1.30
  jsRound ((if m = 0 then 0 else m) / v)

/-- The `properties` object of the route Feature. -/
structure RouteProperties where
  distance_m : ℚ
  duration_s : ℤ
  profile : String
  segments : List Seg
deriving DecidableEq

/-- The single Feature of the returned FeatureCollection. -/
structure RouteFeature where
  geometry : List (List (ℚ × ℚ))
  properties : RouteProperties
deriving DecidableEq

/-- What `findRoute` returns on success: the `{ error: "No path found" }`
object, or the FeatureCollection with its one route Feature. -/
inductive RouteResult where
  | noPath
  | collection (f : RouteFeature)
deriving DecidableEq

/-- Embeds `findRoute` (second class): validate `from`, resolve the start node,
resolve the destination, run the solver, and assemble the result;
`{ error: "No path found" }` when the routing row has no geometry.
`distance_m = Number(row.distance_m) || 0`. Thrown errors are `Except.error`.
Every statement the method issues is a SELECT against the client, so the
embedding is a pure function of the database state. -/
def findRoute (g : GeoFns) (p : RouteParams) (db : DB) :
    Except String RouteResult :=
  let profile := p.profile.getD "walking"
  match validateFrom p.fromCoord with
  | .error e => .error e
  | .ok (lon, lat) =>
    match resolveStartNode g lon lat db with
    | .error e => .error e
    | .ok startInfo =>
      match resolveDestination p.toDest p.toFeaturesId db with
      | .error e => .error e
      | .ok toNodeId =>
        let row := routeFromNodeToNode g startInfo.nodeId toNodeId db
        match row.geometry with
        | none => .ok .noPath
        | some geomLine =>
          let distance_m := if row.distance_m = 0 then 0 else row.distance_m
          let duration_s := secondsFromMeters distance_m profile
          .ok (.collection
            { geometry := geomLine,
              properties :=
                { distance_m := distance_m, duration_s := duration_s,
                  profile := profile, segments := row.segments } })

/-- One routing session over the shared database: the v2 `findRoute` issues
only SELECT statements (unlike the first-class version, which INSERTed a
virtual start node and connector edges), so the database after the request
is the database before it. The session returns the response together with
the post-request database state. -/
def findRouteSession (g : GeoFns) (p : RouteParams) (db : DB) :
    Except String RouteResult × DB :=
  (findRoute g p db, db)

end TempleEdgesRepository

/-! ## TempleFeaturesRepository (temple_nodes.repository.js) -/

/-- The pagination envelope built by both `findAll` and `findNearest`:
`totalPages = Math.ceil(totalItems / limit)`, `hasNextPage = page < totalPages`,
`hasPreviousPage = page > 1`. -/
structure Pagination where
  currentPage : ℕ
  totalPages : ℕ
  totalItems : ℕ
  itemsPerPage : ℕ
  hasNextPage : Bool
  hasPreviousPage : Bool
deriving DecidableEq

namespace TempleFeaturesRepository

/-- Models `col ILIKE '%q%'`: case-insensitive substring containment. -/
def ilikeContains (hay needle : String) : Bool :=
  decide ((needle.data.map Char.toUpper) <:+: (hay.data.map Char.toUpper))

/-- Models `ST_Intersects(n.geom, ST_MakeEnvelope(minLon, minLat, maxLon, maxLat))`
for a point geometry: containment in the axis-aligned envelope. -/
def inEnvelope (bbox : ℚ × ℚ × ℚ × ℚ) (lon lat : ℚ) : Bool :=
  decide (bbox.1 ≤ lon ∧ lon ≤ bbox.2.2.1 ∧ bbox.2.1 ≤ lat ∧ lat ≤ bbox.2.2.2)

/-- Insertion step of the sort modelling SQL `ORDER BY`. -/
def insertSorted {α : Type} (le : α → α → Bool) (a : α) : List α → List α
  | [] => [a]
  | b :: rest => if le a b then a :: b :: rest else b :: insertSorted le a rest

/-- Insertion sort by `le`, modelling SQL `ORDER BY`. -/
def sortBy {α : Type} (le : α → α → Bool) : List α → List α
  | [] => []
  | a :: rest => insertSorted le a (sortBy le rest)

/-- Models `Math.ceil(totalItems / limit)` for natural inputs (`limit ≥ 1`; for
`limit = 0` JavaScript would give `Infinity`, outside this model). -/
def ceilDiv (totalItems limit : ℕ) : ℕ :=
  (totalItems + limit - 1) / limit

/-- The shared pagination object literal of `findAll` and `findNearest`. -/
def buildPagination (page limit totalItems : ℕ) : Pagination :=
  { currentPage := page,
    totalPages := ceilDiv totalItems limit,
    totalItems := totalItems,
    itemsPerPage := limit,
    hasNextPage := decide (page < ceilDiv totalItems limit),
    hasPreviousPage := decide (1 < page) }

/-- The optional filters of `findAll`; `bbox` is
`(minLon, minLat, maxLon, maxLat)`. -/
structure FeatureFilters where
  type : Option String
  q : Option String
  bbox : Option (ℚ × ℚ × ℚ × ℚ)
deriving DecidableEq

/-- The `WHERE` clause assembled by `findAll`: each filter clause is added
only when the corresponding value is truthy (an empty string is falsy, so
`type=""` or `q=""` adds no clause). -/
def findAllPred (filters : FeatureFilters) (fn : TempleFeature × Node) : Bool :=
  (match filters.type with
   | some t => if t = "" then true else fn.1.type = t
   | none => true)
  && (match filters.q with
      | some qs =>
        if qs = "" then true
        else ilikeContains fn.1.name qs || ilikeContains fn.1.description qs
      | none => true)
  && (match filters.bbox with
      | some bb => inEnvelope bb fn.2.lon fn.2.lat
      | none => true)

/-- Models `JOIN temple_nodes n ON f.node_id = n.id`. -/
def joinNodes (db : DB) : List (TempleFeature × Node) :=
  db.features.filterMap (fun f =>
    (db.nodes.find? (fun n => n.id = f.node_id)).map (fun n => (f, n)))

/-- Embeds `findAll` of TempleFeaturesRepository: filtered join ordered by
`f.id ASC` with `LIMIT limit OFFSET (page-1)*limit`, a total count over the
same filters, and the pagination envelope. Read-only: the database is
returned unchanged. -/
def findAll (filters : FeatureFilters) (page limit : ℕ) (db : DB) :
    List TempleFeature × Pagination :=
  let filtered := (joinNodes db).filter (findAllPred filters)
  let ordered := sortBy (fun a b => a.1.id ≤ b.1.id) filtered
  let offset := (page - 1) * limit
  let data := ((ordered.drop offset).take limit).map Prod.fst
  let totalItems := filtered.length
  (data, buildPagination page limit totalItems)

/-- The optional filters of `findNearest` beyond the reference point. -/
structure NearFilters where
  type : Option String
  radius : Option ℚ
deriving DecidableEq

/-- The `WHERE 1=1 AND ...` clause of `findNearest`: a `type` clause when
`type` is truthy and an `ST_DWithin(n.geom::geography, pt, radius)` clause
when `radius` is truthy (`radius = 0` is falsy and adds no clause);
`ST_DWithin` on geography is geodesic distance ≤ radius. -/
def findNearestPred (g : GeoFns) (lon lat : ℚ) (filters : NearFilters)
    (fn : TempleFeature × Node) : Bool :=
  (match filters.type with
   | some t => if t = "" then true else fn.1.type = t
   | none => true)
  && (match filters.radius with
      | some r =>
        if r = 0 then true
        else decide (g.geoDist (fn.2.lon, fn.2.lat) (lon, lat) ≤ r)
      | none => true)

/-- Embeds `findNearest` of TempleFeaturesRepository: filtered join ordered by
`ST_DistanceSphere(n.geom, pt)` ascending with limit/offset, rows carrying
`distance_m = ST_DistanceSphere(...)`, a count over the same filters, and
the same pagination envelope. Read-only. -/
def findNearest (g : GeoFns) (lon lat : ℚ) (filters : NearFilters)
    (page limit : ℕ) (db : DB) :
    List (TempleFeature × ℚ) × Pagination :=
  let filtered := (joinNodes db).filter (findNearestPred g lon lat filters)
  let ordered := sortBy
    (fun a b => decide (g.sphereDist (a.2.lon, a.2.lat) (lon, lat)
      ≤ g.sphereDist (b.2.lon, b.2.lat) (lon, lat))) filtered
  let offset := (page - 1) * limit
  let data := ((ordered.drop offset).take limit).map
    (fun fn => (fn.1, g.sphereDist (fn.2.lon, fn.2.lat) (lon, lat)))
  let totalItems := filtered.length
  (data, buildPagination page limit totalItems)

end TempleFeaturesRepository

/-! ## Spec-side definitions used to state the claims -/

/-- Spec-side formulation of the entry naming convention as the code
actually implements it: the case-folded name starts with `ENTRY` and the
remainder is empty or starts with an underscore, a backspace character, or
whitespace. Compared against `entryNameMatches` (the embedding of the SQL
pattern). -/
def entrySpecMatches (name : String) : Bool :=
  let u := name.data.map Char.toUpper
  ['E', 'N', 'T', 'R', 'Y'].isPrefixOf u &&
    (match u.drop 5 with
     | [] => true
     | c :: _ => c = '_' || c = '\x08' || TempleEdgesRepository.pgSpaceChar c)

/-- Spec-side profile speed table (meters/second), written from the amended
claim: walking 1.35, wheelchair 1.10, guided 1.20, every other profile
string 1.30. -/
def profileSpeedSpec (p : String) : ℚ :=
  if p = "walking" then 1.35
  else if p = "wheelchair" then 1.10
  else if p = "guided" then 1.20
  else 1.30

/-- Spec-side linear elevation profile: the value assigned to vertex `i` of
an `n`-vertex line running from elevation `s` to elevation `e`,
`s + (e - s) * (i / (n - 1))`. -/
def zlinear (s e : ℚ) (n i : ℕ) : ℚ :=
  s + (e - s) * ((i : ℚ) / ((n : ℚ) - 1))

/-- A leaf holding a JS number. -/
def numericLeaf : Coords → Bool
  | .leaf v => v.isNumber
  | .arr _ => false

mutual
/-- Well-formed GeoJSON coordinates: an array tree whose coordinate tuples
(arrays with a numeric first element) consist of numeric leaves only and
have at least two components. -/
def wfCoords : Coords → Bool
  | .leaf _ => false
  | .arr elems =>
    if Coords.headIsNumber elems then
      elems.all numericLeaf && decide (2 ≤ elems.length)
    else wfCoordsList elems

/-- Applies `wfCoords` on every element of a nested array. -/
def wfCoordsList : List Coords → Bool
  | [] => true
  | c :: rest => wfCoords c && wfCoordsList rest
end

mutual
/-- Strictly two-dimensional well-formed coordinates: every tuple has
exactly two (numeric leaf) components. -/
def wf2D : Coords → Bool
  | .leaf _ => false
  | .arr elems =>
    if Coords.headIsNumber elems then
      elems.all numericLeaf && decide (elems.length = 2)
    else wf2DList elems

/-- Applies `wf2D` on every element of a nested array. -/
def wf2DList : List Coords → Bool
  | [] => true
  | c :: rest => wf2D c && wf2DList rest
end

mutual
/-- Every coordinate tuple in the tree has exactly three components. -/
def tuples3 : Coords → Bool
  | .leaf _ => true
  | .arr elems =>
    if Coords.headIsNumber elems then decide (elems.length = 3)
    else tuples3List elems

/-- Applies `tuples3` on every element of a nested array. -/
def tuples3List : List Coords → Bool
  | [] => true
  | c :: rest => tuples3 c && tuples3List rest
end

/-- The third component of a coordinate tuple, when it is a leaf. -/
def thirdOf (elems : List Coords) : Option JSVal :=
  match elems.get? 2 with
  | some (.leaf v) => some v
  | _ => none

mutual
/-- The third components of all coordinate tuples in the tree, in order. -/
def tupleThirds : Coords → List (Option JSVal)
  | .leaf _ => []
  | .arr elems =>
    if Coords.headIsNumber elems then [thirdOf elems]
    else tupleThirdsList elems

/-- Applies `tupleThirds` over the elements of a nested array, concatenated. -/
def tupleThirdsList : List Coords → List (Option JSVal)
  | [] => []
  | c :: rest => tupleThirds c ++ tupleThirdsList rest
end

/-- The number of coordinate tuples in the tree. -/
def tupleCount (c : Coords) : ℕ := (tupleThirds c).length

/-- A well-formed coordinate tuple (vertex): an array with a numeric first
element, numeric leaves throughout, and at least two components. -/
def wfVertex : Coords → Bool
  | .arr ptElems => Coords.headIsNumber ptElems && wfCoords (.arr ptElems)
  | .leaf _ => false

/-- Shape-correct GeoJSON geometry for the coordinate types `to3DGeometry`
dispatches on: a `Point` is one tuple, a `LineString` is an array of
tuples, any other non-empty type is an arbitrary well-formed tree. -/
def wfGeometry (geom : Geometry) : Bool :=
  decide (geom.type ≠ "") &&
    (if geom.type = "Point" then wfVertex geom.coordinates
      else if geom.type = "LineString" then
        match geom.coordinates with
        | .arr elems => elems.all wfVertex
        | .leaf _ => false
      else wfCoords geom.coordinates)

/-- The third component of a vertex of a line, when the vertex is an array
with a leaf in position 2. -/
def vertexThird : Coords → Option JSVal
  | .arr elems => thirdOf elems
  | .leaf _ => none

/-- The pagination invariant exactly as the claim states it: whenever
`hasPreviousPage` is true the previous-page offset lies below the total
count, and `hasNextPage` is false iff the current page is the last page. -/
def paginationInvariantHolds (pg : Pagination) : Prop :=
  (pg.hasPreviousPage = true →
    (pg.currentPage : ℤ) * pg.itemsPerPage - pg.itemsPerPage < pg.totalItems) ∧
  (pg.hasNextPage = false ↔ pg.currentPage = pg.totalPages)

/-! ## Concrete fixtures used by the witnesses -/

/-- Squared Euclidean distance on the plane: a concrete stand-in for the
external PostGIS metrics in witness evaluations. -/
def sqDist : ℚ × ℚ → ℚ × ℚ → ℚ :=
  fun a b => (a.1 - b.1) * (a.1 - b.1) + (a.2 - b.2) * (a.2 - b.2)

/-- Concrete geometry functions for witnesses: squared Euclidean metrics and
a polyline length of 5 per segment. -/
def exGeo : GeoFns :=
  { knnDist := sqDist, geoDist := sqDist, sphereDist := sqDist,
    lineLen := fun l => 5 * ((l.length : ℚ) - 1) }

/-- A two-node, one-edge database on which a route exists. -/
def exRouteDB : DB :=
  { nodes := [{ id := 1, name := "A", altitude_m := none, lon := 0, lat := 0 },
              { id := 2, name := "B", altitude_m := none, lon := 10, lat := 0 }],
    edges := [{ id := 1, source := 1, target := 2, cost := 5,
                reverse_cost := some 5, geom := [(0, 0), (10, 0)] }],
    features := [] }

/-- A two-node database with no edge between the nodes (disconnected). -/
def exDisconnectedDB : DB :=
  { nodes := [{ id := 1, name := "A", altitude_m := none, lon := 0, lat := 0 },
              { id := 2, name := "B", altitude_m := none, lon := 10, lat := 0 }],
    edges := [], features := [] }

/-- A database with one entry-named node and one plain node. -/
def exEntryDB : DB :=
  { nodes := [{ id := 1, name := "Gate 1", altitude_m := none, lon := 0, lat := 0 },
              { id := 2, name := "ENTRY_NORTH", altitude_m := none, lon := 3, lat := 0 }],
    edges := [], features := [] }

/-- A features database with five features on five nodes. -/
def exFeaturesDB : DB :=
  { nodes :=
      [{ id := 1, name := "N1", altitude_m := none, lon := 0, lat := 0 },
       { id := 2, name := "N2", altitude_m := none, lon := 1, lat := 0 },
       { id := 3, name := "N3", altitude_m := none, lon := 2, lat := 0 },
       { id := 4, name := "N4", altitude_m := none, lon := 3, lat := 0 },
       { id := 5, name := "N5", altitude_m := none, lon := 4, lat := 0 }],
    edges := [],
    features :=
      [{ id := 1, node_id := 1, type := "stupa", name := "F1",
         description := "", image_url := "", rating := 4 },
       { id := 2, node_id := 2, type := "stupa", name := "F2",
         description := "", image_url := "", rating := 4 },
       { id := 3, node_id := 3, type := "stupa", name := "F3",
         description := "", image_url := "", rating := 4 },
       { id := 4, node_id := 4, type := "stupa", name := "F4",
         description := "", image_url := "", rating := 4 },
       { id := 5, node_id := 5, type := "stupa", name := "F5",
         description := "", image_url := "", rating := 4 }] }

/-- A features database with three features (for the in-range pagination
witness). -/
def exFeatures3DB : DB :=
  { nodes :=
      [{ id := 1, name := "N1", altitude_m := none, lon := 0, lat := 0 },
       { id := 2, name := "N2", altitude_m := none, lon := 1, lat := 0 },
       { id := 3, name := "N3", altitude_m := none, lon := 2, lat := 0 }],
    edges := [],
    features :=
      [{ id := 1, node_id := 1, type := "stupa", name := "F1",
         description := "", image_url := "", rating := 4 },
       { id := 2, node_id := 2, type := "stupa", name := "F2",
         description := "", image_url := "", rating := 4 },
       { id := 3, node_id := 3, type := "stupa", name := "F3",
         description := "", image_url := "", rating := 4 }] }


/-- Route parameters used by witnesses on `exRouteDB`/`exDisconnectedDB`:
start at the origin, destination node 2, default profile. -/
def exRouteParams : TempleEdgesRepository.RouteParams :=
  { fromCoord := [0, 0], toDest := some (.intId 2),
    toFeaturesId := none, profile := none }

/-- The route feature `findRoute` produces on `exRouteDB` with
`exRouteParams`. -/
def exRouteFC : TempleEdgesRepository.RouteFeature :=
  { geometry := [[(0, 0), (10, 0)]],
    properties :=
      { distance_m := 5, duration_s := 4, profile := "walking",
        segments := [{ edge_id := 1, length_m := 5 }] } }

/-- The start node resolved at the origin on `exDisconnectedDB`. -/
def exStartA : TempleEdgesRepository.StartNode :=
  .nearest { id := 1, name := "A", altitude_m := none,
             lon := 0, lat := 0, distance_m := 0 }

/-- The nearest-node row at coordinate (1, 0) on `exEntryDB`. -/
def exGateInfo : TempleEdgesRepository.NodeInfo :=
  { id := 1, name := "Gate 1", altitude_m := none,
    lon := 0, lat := 0, distance_m := 1 }

/-- A three-vertex 2-D line used by the interpolation witness. -/
def exLinePts : List Coords :=
  [.arr [.leaf (.num 0), .leaf (.num 0)],
   .arr [.leaf (.num 1), .leaf (.num 1)],
   .arr [.leaf (.num 2), .leaf (.num 2)]]

/-- A 2-D point geometry used by the C10 witness and counterexample. -/
def exPointGeom : Geometry :=
  { type := "Point", coordinates := .arr [.leaf (.num 1), .leaf (.num 2)] }

/-! ## Solver lemmas -/

namespace TempleEdgesRepository

theorem mem_arcsOfEdges_backward {edges : List Edge} {a : Arc}
    (ha : a ∈ arcsOfEdges edges) (hdir : a.dir = .backward) :
    ∃ e ∈ edges, a.edgeId = e.id ∧ 0 ≤ coalescedReverseCost e := by
  induction edges with
  | nil => simp [arcsOfEdges] at ha
  | cons e rest ih =>
    simp only [arcsOfEdges, List.mem_append] at ha
    rcases ha with (ha | ha) | ha
    · by_cases hc : 0 ≤ e.cost
      · simp only [if_pos hc, List.mem_singleton] at ha
        rw [ha] at hdir
        simp at hdir
      · simp [if_neg hc] at ha
    · by_cases hc : 0 ≤ coalescedReverseCost e
      · simp only [if_pos hc, List.mem_singleton] at ha
        exact ⟨e, List.mem_cons_self e rest, by rw [ha], hc⟩
      · simp [if_neg hc] at ha
    · obtain ⟨e2, he2, hid, hrc⟩ := ih ha
      exact ⟨e2, List.mem_cons_of_mem _ he2, hid, hrc⟩

theorem dijkstraAux_path_mem (arcs : List Arc) (dst : ℤ) (fuel : ℕ) :
    ∀ (visited : List ℤ) (frontier : List PQEntry),
      (∀ en ∈ frontier, ∀ a ∈ en.path, a ∈ arcs) →
      ∀ {p : List Arc} {c : ℚ},
        dijkstraAux arcs dst fuel visited frontier = some (p, c) →
        ∀ a ∈ p, a ∈ arcs := by
  induction fuel with
  | zero =>
    intro visited frontier hfr p c h
    simp [dijkstraAux] at h
  | succ n ih =>
    intro visited frontier hfr p c h a hap
    rw [dijkstraAux] at h
    split at h
    · simp at h
    · rename_i e hm
      have he : e ∈ frontier := List.argmin_mem hm
      split at h
      · rename_i hdst
        simp only [Option.some.injEq, Prod.mk.injEq] at h
        obtain ⟨hp, hc⟩ := h
        rw [← hp] at hap
        exact hfr e he a (List.mem_reverse.1 hap)
      · rename_i hdst
        split at h
        · exact ih visited (frontier.erase e)
            (fun en hen => hfr en (List.mem_of_mem_erase hen)) h a hap
        · refine ih _ _ ?_ h a hap
          intro en hen b hb
          rcases List.mem_append.1 hen with h1 | h1
          · exact hfr en (List.mem_of_mem_erase h1) b hb
          · obtain ⟨a2, ha2, hfa⟩ := List.mem_filterMap.1 h1
            by_cases hsrc : a2.src = e.node
            · rw [if_pos hsrc] at hfa
              simp only [Option.some.injEq] at hfa
              rw [← hfa] at hb
              rcases List.mem_cons.1 hb with rfl | hb2
              · exact ha2
              · exact hfr e he b hb2
            · rw [if_neg hsrc] at hfa
              cases hfa

theorem pgrDijkstra_path_mem {edges : List Edge} {src dst : ℤ}
    {p : List Arc} {c : ℚ} (h : pgrDijkstra edges src dst = some (p, c)) :
    ∀ a ∈ p, a ∈ arcsOfEdges edges := by
  unfold pgrDijkstra at h
  refine dijkstraAux_path_mem _ dst _ [] [⟨0, src, []⟩] ?_ h
  intro en hen b hb
  simp only [List.mem_singleton] at hen
  rw [hen] at hb
  simp at hb

theorem findRoute_ok_collection {g : GeoFns} {p : RouteParams} {db : DB}
    {fc : RouteFeature} (h : findRoute g p db = .ok (.collection fc)) :
    ∃ lon lat startInfo toNodeId,
      validateFrom p.fromCoord = .ok (lon, lat) ∧
      resolveStartNode g lon lat db = .ok startInfo ∧
      resolveDestination p.toDest p.toFeaturesId db = .ok toNodeId ∧
      (routeFromNodeToNode g startInfo.nodeId toNodeId db).geometry
        = some fc.geometry ∧
      fc.properties =
        (let row := routeFromNodeToNode g startInfo.nodeId toNodeId db
         let dist := if row.distance_m = 0 then 0 else row.distance_m
         { distance_m := dist,
           duration_s := secondsFromMeters dist (p.profile.getD "walking"),
           profile := p.profile.getD "walking",
           segments := row.segments }) := by
  unfold findRoute at h
  split at h
  · simp at h
  · rename_i lon lat hv
    split at h
    · simp at h
    · rename_i startInfo hs
      split at h
      · simp at h
      · rename_i toNodeId hd
        simp only [] at h
        split at h
        · simp at h
        · rename_i gl hg
          simp only [Except.ok.injEq, RouteResult.collection.injEq] at h
          refine ⟨lon, lat, startInfo, toNodeId, hv, hs, hd, ?_, ?_⟩
          · rw [hg, ← h]
          · rw [← h]

end TempleEdgesRepository

/-! ## C7 — entry naming convention -/

/-- C7 counterexample: the name "ENTRYWAY" begins with the case-insensitive
prefix "ENTRY", yet the code's entry-name pattern
`^ENTRY(\b|_|\s|$)` rejects it, because in PostgreSQL the pattern requires
"ENTRY" to be followed by an underscore, whitespace, a backspace character,
or the end of the name. So "begins with the prefix ENTRY" does not
characterize entry nodes. -/
theorem C7_entry_prefix_counterexample :
    "ENTRY".data <+: "ENTRYWAY".data ∧
    TempleEdgesRepository.entryNameMatches "ENTRYWAY" = false := by
  constructor
  · decide
  · decide

/-- C7 amended: a node qualifies as an entry node exactly when its
case-folded display name is "ENTRY" followed by nothing at all, an
underscore, whitespace, or a backspace character ("ENTRY_NORTH" in any
letter case matches, "ENTRY" itself matches, "Gate 1" and "ENTRYWAY" do
not). The embedded SQL predicate agrees with this characterization on every
name. -/
theorem C7_entry_pattern_characterization :
    (∀ name : String,
        TempleEdgesRepository.entryNameMatches name = entrySpecMatches name) ∧
    TempleEdgesRepository.entryNameMatches "ENTRY_NORTH" = true ∧
    TempleEdgesRepository.entryNameMatches "entry_north" = true ∧
    TempleEdgesRepository.entryNameMatches "ENTRY" = true ∧
    TempleEdgesRepository.entryNameMatches "Gate 1" = false := by
  refine ⟨fun name => ?_, by decide, by decide, by decide, by decide⟩
  unfold TempleEdgesRepository.entryNameMatches entrySpecMatches
  generalize name.data.map Char.toUpper = u
  split
  · rename_i rest
    simp only [List.isPrefixOf_cons₂_self, List.isPrefixOf_nil_left,
      List.drop_succ_cons, List.drop_nil, List.drop_zero]
    cases rest <;> simp
  · rename_i hne
    cases hb : (['E', 'N', 'T', 'R', 'Y'].isPrefixOf u) with
    | false => simp [hb]
    | true =>
      exfalso
      have hp : ['E', 'N', 'T', 'R', 'Y'] <+: u :=
        List.isPrefixOf_iff_prefix.1 hb
      obtain ⟨t, ht⟩ := hp
      exact hne t ht.symm

/-! ## C3 — profile speeds and duration -/

/-- The guard `m || 0` on a finite number is the number itself. -/
theorem jsOrZero_eq (m : ℚ) : (if m = 0 then 0 else m) = m := by
  by_cases h : m = 0 <;> simp [h]

/-- The code's duration computation agrees with the spec-side speed table
pointwise. -/
theorem secondsFromMeters_eq_spec (m : ℚ) (p : String) :
    TempleEdgesRepository.secondsFromMeters m p =
      jsRound (m / profileSpeedSpec p) := by
  unfold TempleEdgesRepository.secondsFromMeters profileSpeedSpec
  rw [jsOrZero_eq]

/-- C3 counterexample: for the profile string "accessible" the code applies
the default speed 1.30 m/s, not the claimed 1.10 m/s — a 135 m route
reports 104 seconds where the claim requires round(135 / 1.10) = 123. -/
theorem C3_accessible_profile_counterexample :
    TempleEdgesRepository.secondsFromMeters 135 "accessible" = 104 ∧
    jsRound ((135 : ℚ) / 1.10) = 123 ∧
    TempleEdgesRepository.secondsFromMeters 135 "accessible"
      ≠ jsRound ((135 : ℚ) / 1.10) := by
  refine ⟨?_, ?_, ?_⟩ <;> with_unfolding_all decide

/-- C3 amended: for every route result, `duration_s` is the route distance
divided by the profile speed, rounded to the nearest whole second, where the
speed is 1.35 m/s for "walking", 1.10 m/s for "wheelchair" (and only that
exact string — "accessible" is not special-cased), 1.20 m/s for "guided",
and 1.30 m/s otherwise; in particular a 135 m walking route yields
`duration_s = 100`. -/
theorem C3_duration_profile_speed {g : GeoFns}
    {p : TempleEdgesRepository.RouteParams} {db : DB}
    {fc : TempleEdgesRepository.RouteFeature}
    (h : TempleEdgesRepository.findRoute g p db = .ok (.collection fc)) :
    fc.properties.duration_s =
      jsRound (fc.properties.distance_m /
        profileSpeedSpec fc.properties.profile) ∧
    TempleEdgesRepository.secondsFromMeters 135 "walking" = 100 := by
  obtain ⟨lon, lat, s, t, hv, hs, hd, hg, hp⟩ :=
    TempleEdgesRepository.findRoute_ok_collection h
  constructor
  · rw [hp]
    exact secondsFromMeters_eq_spec _ _
  · with_unfolding_all decide

/-- C3 witness: on the concrete one-edge graph the route is 5 m and the
walking duration is round(5 / 1.35) = 4 s. -/
theorem C3_duration_profile_speed_witness :
    TempleEdgesRepository.findRoute exGeo exRouteParams exRouteDB
      = .ok (.collection exRouteFC) ∧
    (exRouteFC.properties.duration_s =
        jsRound (exRouteFC.properties.distance_m /
          profileSpeedSpec exRouteFC.properties.profile) ∧
      TempleEdgesRepository.secondsFromMeters 135 "walking" = 100) :=
  have h : TempleEdgesRepository.findRoute exGeo exRouteParams exRouteDB
      = .ok (.collection exRouteFC) := by with_unfolding_all decide
  ⟨h, C3_duration_profile_speed h⟩

/-! ## C5 — distance equals the sum of segment lengths -/

/-- C5: for every route result, the reported `distance_m` equals the sum of
the per-edge `length_m` values of its `segments` array, exactly (both are
built from the same edge rows). -/
theorem C5_distance_eq_segment_sum {g : GeoFns}
    {p : TempleEdgesRepository.RouteParams} {db : DB}
    {fc : TempleEdgesRepository.RouteFeature}
    (h : TempleEdgesRepository.findRoute g p db = .ok (.collection fc)) :
    fc.properties.distance_m =
      (fc.properties.segments.map TempleEdgesRepository.Seg.length_m).sum := by
  obtain ⟨lon, lat, s, t, hv, hs, hd, hg, hp⟩ :=
    TempleEdgesRepository.findRoute_ok_collection h
  rw [hp]
  simp only []
  rw [jsOrZero_eq]
  unfold TempleEdgesRepository.routeFromNodeToNode
  simp only [List.map_map]
  rfl

/-- C5 witness: on the concrete one-edge graph, `distance_m = 5` equals the
sum of the single segment length. -/
theorem C5_distance_eq_segment_sum_witness :
    TempleEdgesRepository.findRoute exGeo exRouteParams exRouteDB
      = .ok (.collection exRouteFC) ∧
    exRouteFC.properties.distance_m =
      (exRouteFC.properties.segments.map TempleEdgesRepository.Seg.length_m).sum :=
  have h : TempleEdgesRepository.findRoute exGeo exRouteParams exRouteDB
      = .ok (.collection exRouteFC) := by with_unfolding_all decide
  ⟨h, C5_distance_eq_segment_sum h⟩

/-! ## C4 — no path found is surfaced -/

/-- C4: whenever the solver reports no path between the resolved start node
and the destination, `findRoute` returns the "No path found" result and no
route geometry (the geometry-bearing constructor is not produced). -/
theorem C4_no_path_surfaced {g : GeoFns}
    {p : TempleEdgesRepository.RouteParams} {db : DB} {lon lat : ℚ}
    {startInfo : TempleEdgesRepository.StartNode} {toNodeId : ℤ}
    (hv : TempleEdgesRepository.validateFrom p.fromCoord = .ok (lon, lat))
    (hs : TempleEdgesRepository.resolveStartNode g lon lat db = .ok startInfo)
    (hd : TempleEdgesRepository.resolveDestination p.toDest p.toFeaturesId db
      = .ok toNodeId)
    (hnp : TempleEdgesRepository.pgrDijkstra db.edges startInfo.nodeId toNodeId
      = none) :
    TempleEdgesRepository.findRoute g p db = .ok .noPath := by
  have hgeo : (TempleEdgesRepository.routeFromNodeToNode g startInfo.nodeId
      toNodeId db).geometry = none := by
    unfold TempleEdgesRepository.routeFromNodeToNode
    simp [hnp]
  simp [TempleEdgesRepository.findRoute, hv, hs, hd, hgeo]

/-- C4 witness: on the disconnected two-node graph (spec scenario 4) the
solver finds no path from node 1 to node 2 and `findRoute` surfaces the
no-path result. -/
theorem C4_no_path_surfaced_witness :
    TempleEdgesRepository.validateFrom exRouteParams.fromCoord = .ok (0, 0) ∧
    TempleEdgesRepository.resolveStartNode exGeo 0 0 exDisconnectedDB
      = .ok exStartA ∧
    TempleEdgesRepository.resolveDestination exRouteParams.toDest
      exRouteParams.toFeaturesId exDisconnectedDB = .ok 2 ∧
    TempleEdgesRepository.pgrDijkstra exDisconnectedDB.edges
      exStartA.nodeId 2 = none ∧
    TempleEdgesRepository.findRoute exGeo exRouteParams exDisconnectedDB
      = .ok .noPath :=
  have h1 : TempleEdgesRepository.validateFrom exRouteParams.fromCoord
      = .ok (0, 0) := by with_unfolding_all decide
  have h2 : TempleEdgesRepository.resolveStartNode exGeo 0 0 exDisconnectedDB
      = .ok exStartA := by with_unfolding_all decide
  have h3 : TempleEdgesRepository.resolveDestination exRouteParams.toDest
      exRouteParams.toFeaturesId exDisconnectedDB = .ok 2 := by
    with_unfolding_all decide
  have h4 : TempleEdgesRepository.pgrDijkstra exDisconnectedDB.edges
      exStartA.nodeId 2 = none := by with_unfolding_all decide
  ⟨h1, h2, h3, h4, C4_no_path_surfaced h1 h2 h3 h4⟩

/-! ## C2 — disabled reverse cost prunes target→source traversal -/

/-- C2: an edge whose `reverse_cost` is a negative sentinel is never
traversed from target to source by the solver: no arc of any returned path
uses that edge in the backward direction (edge ids assumed unique, as they
are for a primary-key column). -/
theorem C2_reverse_disabled_not_traversed {edges : List Edge} {src dst : ℤ}
    {path : List TempleEdgesRepository.Arc} {c : ℚ}
    (hroute : TempleEdgesRepository.pgrDijkstra edges src dst = some (path, c))
    {e : Edge} (he : e ∈ edges) {rc : ℚ}
    (hrc : e.reverse_cost = some rc) (hneg : rc < 0)
    (huniq : ∀ e2 ∈ edges, e2.id = e.id → e2 = e) :
    ∀ a ∈ path, ¬(a.edgeId = e.id ∧ a.dir = .backward) := by
  rintro a hap ⟨hid, hdir⟩
  have hmem := TempleEdgesRepository.pgrDijkstra_path_mem hroute a hap
  obtain ⟨e2, he2, hid2, hrc2⟩ :=
    TempleEdgesRepository.mem_arcsOfEdges_backward hmem hdir
  have he2e : e2 = e := huniq e2 he2 (hid2.symm.trans hid)
  subst he2e
  rw [TempleEdgesRepository.coalescedReverseCost, hrc] at hrc2
  simp only [Option.getD_some] at hrc2
  exact absurd hrc2 (not_le.2 hneg)

/-- C2 witness: on a one-edge graph with `reverse_cost = -1` the only path
from 1 to 2 is the forward arc, and the reverse traversal of that edge never
appears. -/
theorem C2_reverse_disabled_not_traversed_witness :
    (TempleEdgesRepository.pgrDijkstra
        [{ id := 1, source := 1, target := 2, cost := 5,
           reverse_cost := some (-1), geom := [(0, 0), (10, 0)] }] 1 2
      = some ([⟨1, 1, 2, 5, .forward⟩], 5)) ∧
    (∀ a ∈ [(⟨1, 1, 2, 5, .forward⟩ : TempleEdgesRepository.Arc)],
      ¬(a.edgeId = 1 ∧ a.dir = .backward)) :=
  have h : TempleEdgesRepository.pgrDijkstra
      [{ id := 1, source := 1, target := 2, cost := 5,
         reverse_cost := some (-1), geom := [(0, 0), (10, 0)] }] 1 2
      = some ([⟨1, 1, 2, 5, .forward⟩], 5) := by with_unfolding_all decide
  ⟨h, C2_reverse_disabled_not_traversed h (List.mem_singleton.2 rfl) rfl
    (by norm_num) (fun e2 he2 _ => List.mem_singleton.1 he2)⟩

/-! ## C9 — routing queries are read-only -/

/-- C9: a routing session leaves the stored graph unchanged — the v2
`findRoute` issues only SELECT statements, so the database after the request
equals the database before it — and the resolved start node is always one of
the stored nodes (no ephemeral/virtual node is written, unlike the replaced
first-class implementation which INSERTed a `virtual_start` row). -/
theorem C9_routing_read_only (g : GeoFns)
    (p : TempleEdgesRepository.RouteParams) (db : DB) :
    (TempleEdgesRepository.findRouteSession g p db).2 = db ∧
    (∀ lon lat s, TempleEdgesRepository.resolveStartNode g lon lat db = .ok s →
      ∃ n ∈ db.nodes, s.nodeId = n.id) := by
  refine ⟨rfl, fun lon lat s hs => ?_⟩
  unfold TempleEdgesRepository.resolveStartNode at hs
  split at hs
  · cases hs
  · rename_i nearest hn
    have hnear : ∃ n ∈ db.nodes, nearest.id = n.id := by
      unfold TempleEdgesRepository.getNearestNodeInfo at hn
      split at hn
      · cases hn
      · rename_i n hm
        cases hn
        exact ⟨n, List.argmin_mem hm, rfl⟩
    split at hs
    · split at hs
      · rename_i entry hent
        cases hs
        unfold TempleEdgesRepository.getNearestEntryNodeInfo at hent
        split at hent
        · cases hent
        · rename_i n hm
          cases hent
          exact ⟨n, List.mem_filter.1 (List.argmin_mem hm) |>.1, rfl⟩
      · cases hs
        exact hnear
    · cases hs
      exact hnear

/-- C9 witness: a concrete routing session on the one-edge graph returns the
database unchanged, and every resolved start node is a stored node. -/
theorem C9_routing_read_only_witness :
    (TempleEdgesRepository.findRouteSession exGeo exRouteParams exRouteDB).2
      = exRouteDB ∧
    (∀ lon lat s,
      TempleEdgesRepository.resolveStartNode exGeo lon lat exRouteDB = .ok s →
      ∃ n ∈ exRouteDB.nodes, s.nodeId = n.id) :=
  C9_routing_read_only exGeo exRouteParams exRouteDB

/-! ## C1 — tiered start-point resolution -/

/-- C1: with `nearest` the row returned by the nearest-node query, the
resolver (a) received a stored node minimizing the spatial-index ordering;
(b) uses it directly when its geodesic distance is at most the 4-meter
threshold; (c) when the distance exceeds 4 meters and some node anywhere in
the graph matches the entry naming convention, returns the nearest such
node; and (d) when no entry node exists, falls back to the plain nearest
node regardless of its distance. -/
theorem C1_start_resolver_tiered {g : GeoFns} {db : DB} {lon lat : ℚ}
    {nearest : TempleEdgesRepository.NodeInfo}
    (hn : TempleEdgesRepository.getNearestNodeInfo g lon lat db = .ok nearest) :
    (∃ n ∈ db.nodes, nearest.id = n.id ∧
      ∀ m ∈ db.nodes, g.knnDist (n.lon, n.lat) (lon, lat)
        ≤ g.knnDist (m.lon, m.lat) (lon, lat)) ∧
    (nearest.distance_m ≤ 4 →
      TempleEdgesRepository.resolveStartNode g lon lat db
        = .ok (.nearest nearest)) ∧
    (4 < nearest.distance_m →
      (∃ n0 ∈ db.nodes, TempleEdgesRepository.entryNameMatches n0.name = true) →
      ∃ entry, TempleEdgesRepository.resolveStartNode g lon lat db
          = .ok (.entry entry) ∧
        ∃ n ∈ db.nodes, TempleEdgesRepository.entryNameMatches n.name = true ∧
          entry.id = n.id ∧
          ∀ m ∈ db.nodes, TempleEdgesRepository.entryNameMatches m.name = true →
            g.knnDist (n.lon, n.lat) (lon, lat)
              ≤ g.knnDist (m.lon, m.lat) (lon, lat)) ∧
    (4 < nearest.distance_m →
      (∀ n ∈ db.nodes, TempleEdgesRepository.entryNameMatches n.name = false) →
      TempleEdgesRepository.resolveStartNode g lon lat db
        = .ok (.nearest nearest)) := by
  refine ⟨?_, ?_, ?_, ?_⟩
  · have hn2 := hn
    unfold TempleEdgesRepository.getNearestNodeInfo at hn2
    split at hn2
    · cases hn2
    · rename_i n hm
      cases hn2
      exact ⟨n, List.argmin_mem hm, rfl,
        fun m hmem => List.le_of_mem_argmin hmem hm⟩
  · intro hle
    have hng : ¬ nearest.distance_m >
        TempleEdgesRepository.ENTRY_DISTANCE_THRESHOLD_M := not_lt.2 hle
    simp [TempleEdgesRepository.resolveStartNode, hn, hng]
  · rintro hgt ⟨n0, hn0mem, hn0match⟩
    have hg2 : nearest.distance_m >
        TempleEdgesRepository.ENTRY_DISTANCE_THRESHOLD_M := hgt
    have hfil : n0 ∈ db.nodes.filter
        (fun n => TempleEdgesRepository.entryNameMatches n.name) :=
      List.mem_filter.2 ⟨hn0mem, hn0match⟩
    cases hm : (db.nodes.filter
        (fun n => TempleEdgesRepository.entryNameMatches n.name)).argmin
        (fun n => g.knnDist (n.lon, n.lat) (lon, lat)) with
    | none =>
      rw [List.argmin_eq_none] at hm
      rw [hm] at hfil
      simp at hfil
    | some nbest =>
      have hent : TempleEdgesRepository.getNearestEntryNodeInfo g lon lat db
          = some { id := nbest.id, name := nbest.name, lon := nbest.lon,
                   lat := nbest.lat,
                   distance_m := g.geoDist (nbest.lon, nbest.lat) (lon, lat) } := by
        unfold TempleEdgesRepository.getNearestEntryNodeInfo
        rw [hm]
      refine ⟨{ id := nbest.id, name := nbest.name, lon := nbest.lon,
                lat := nbest.lat,
                distance_m := g.geoDist (nbest.lon, nbest.lat) (lon, lat) },
              ?_, nbest, ?_, ?_, rfl, ?_⟩
      · simp [TempleEdgesRepository.resolveStartNode, hn, hg2, hent]
      · exact (List.mem_filter.1 (List.argmin_mem hm)).1
      · exact (List.mem_filter.1 (List.argmin_mem hm)).2
      · intro m hmmem hmmatch
        exact List.le_of_mem_argmin (List.mem_filter.2 ⟨hmmem, hmmatch⟩) hm
  · intro hgt hnone
    have hg2 : nearest.distance_m >
        TempleEdgesRepository.ENTRY_DISTANCE_THRESHOLD_M := hgt
    have hfil : db.nodes.filter
        (fun n => TempleEdgesRepository.entryNameMatches n.name) = [] := by
      rw [List.filter_eq_nil_iff]
      intro n hnmem
      simp [hnone n hnmem]
    have hent : TempleEdgesRepository.getNearestEntryNodeInfo g lon lat db
        = none := by
      unfold TempleEdgesRepository.getNearestEntryNodeInfo
      rw [hfil]
      rfl
    simp [TempleEdgesRepository.resolveStartNode, hn, hg2, hent]

/-- C1 witness: at coordinate (1, 0) on a two-node database the
nearest-node query returns "Gate 1" at distance 1, and the tiered
resolution properties hold there. -/
theorem C1_start_resolver_tiered_witness :
    (TempleEdgesRepository.getNearestNodeInfo exGeo 1 0 exEntryDB
      = .ok exGateInfo) ∧
    ((∃ n ∈ exEntryDB.nodes, exGateInfo.id = n.id ∧
        ∀ m ∈ exEntryDB.nodes, exGeo.knnDist (n.lon, n.lat) (1, 0)
          ≤ exGeo.knnDist (m.lon, m.lat) (1, 0)) ∧
     (exGateInfo.distance_m ≤ 4 →
        TempleEdgesRepository.resolveStartNode exGeo 1 0 exEntryDB
          = .ok (.nearest exGateInfo)) ∧
     (4 < exGateInfo.distance_m →
        (∃ n0 ∈ exEntryDB.nodes,
          TempleEdgesRepository.entryNameMatches n0.name = true) →
        ∃ entry, TempleEdgesRepository.resolveStartNode exGeo 1 0 exEntryDB
            = .ok (.entry entry) ∧
          ∃ n ∈ exEntryDB.nodes,
            TempleEdgesRepository.entryNameMatches n.name = true ∧
            entry.id = n.id ∧
            ∀ m ∈ exEntryDB.nodes,
              TempleEdgesRepository.entryNameMatches m.name = true →
              exGeo.knnDist (n.lon, n.lat) (1, 0)
                ≤ exGeo.knnDist (m.lon, m.lat) (1, 0)) ∧
     (4 < exGateInfo.distance_m →
        (∀ n ∈ exEntryDB.nodes,
          TempleEdgesRepository.entryNameMatches n.name = false) →
        TempleEdgesRepository.resolveStartNode exGeo 1 0 exEntryDB
          = .ok (.nearest exGateInfo))) :=
  have h : TempleEdgesRepository.getNearestNodeInfo exGeo 1 0 exEntryDB
      = .ok exGateInfo := by with_unfolding_all decide
  ⟨h, C1_start_resolver_tiered h⟩

/-! ## C8 — pagination invariant -/

/-- The pagination envelope satisfies the claimed invariant whenever the
requested page does not exceed the computed total pages. -/
theorem buildPagination_in_range (page limit t : ℕ) (hp : 1 ≤ page)
    (hl : 1 ≤ limit)
    (hrange : page ≤
      (TempleFeaturesRepository.buildPagination page limit t).totalPages) :
    paginationInvariantHolds
      (TempleFeaturesRepository.buildPagination page limit t) := by
  simp only [TempleFeaturesRepository.buildPagination,
    TempleFeaturesRepository.ceilDiv, paginationInvariantHolds] at hrange ⊢
  constructor
  · intro hprev
    rw [decide_eq_true_iff] at hprev
    have hl0 : 0 < limit := hl
    have hmul : page * limit ≤ t + limit - 1 :=
      (Nat.le_div_iff_mul_le hl0).1 hrange
    have hge : limit ≤ page * limit :=
      Nat.le_mul_of_pos_left _ (by omega : 0 < page)
    have ht : 1 ≤ t := by
      rcases Nat.eq_zero_or_pos t with h0 | h1
      · subst h0
        omega
      · exact h1
    have hmul2 : (page : ℤ) * limit ≤ (t : ℤ) + limit - 1 := by
      have := hmul
      omega
    linarith
  · rw [decide_eq_false_iff_not, not_lt]
    constructor
    · intro h
      exact Nat.le_antisymm hrange h
    · intro h
      rw [h]

/-- C8 counterexample: requesting page 3 with limit 20 over five features is
a real paginated response whose `hasPreviousPage` is true while
`currentPage * itemsPerPage - itemsPerPage = 40` is not below
`totalItems = 5`, and whose `hasNextPage` is false although
`currentPage = 3 ≠ 1 = totalPages` — the code never clamps the requested
page. -/
theorem C8_pagination_counterexample :
    (TempleFeaturesRepository.findAll ⟨none, none, none⟩ 3 20
        exFeaturesDB).2.hasPreviousPage = true ∧
    ¬ paginationInvariantHolds
      (TempleFeaturesRepository.findAll ⟨none, none, none⟩ 3 20
        exFeaturesDB).2 := by
  constructor
  · with_unfolding_all decide
  · unfold paginationInvariantHolds
    with_unfolding_all decide

/-- C8 amended: the pagination invariant — `hasPreviousPage = true` implies
`currentPage * itemsPerPage - itemsPerPage < totalItems`, and
`hasNextPage = false` iff `currentPage = totalPages` — holds for both the
filtered feature list and the nearest-features query, provided the requested
page is at least 1, the limit is at least 1, and the requested page does not
exceed `totalPages` (the code does not clamp out-of-range pages, so the
invariant can fail beyond the last page). -/
theorem C8_pagination_within_range (g : GeoFns)
    (filters : TempleFeaturesRepository.FeatureFilters)
    (nf : TempleFeaturesRepository.NearFilters) (lon lat : ℚ)
    (page limit : ℕ) (db : DB) (hp : 1 ≤ page) (hl : 1 ≤ limit) :
    (page ≤ (TempleFeaturesRepository.findAll filters page limit db).2.totalPages →
      paginationInvariantHolds
        (TempleFeaturesRepository.findAll filters page limit db).2) ∧
    (page ≤ (TempleFeaturesRepository.findNearest g lon lat nf page limit
        db).2.totalPages →
      paginationInvariantHolds
        (TempleFeaturesRepository.findNearest g lon lat nf page limit db).2) := by
  constructor
  · intro hrange
    exact buildPagination_in_range page limit _ hp hl hrange
  · intro hrange
    exact buildPagination_in_range page limit _ hp hl hrange

/-- C8 witness: page 2 of limit 2 over three features is within range on
both queries, and the invariant holds there. -/
theorem C8_pagination_within_range_witness :
    1 ≤ 2 ∧ 1 ≤ 2 ∧
    ((2 ≤ (TempleFeaturesRepository.findAll ⟨none, none, none⟩ 2 2
        exFeatures3DB).2.totalPages →
      paginationInvariantHolds
        (TempleFeaturesRepository.findAll ⟨none, none, none⟩ 2 2
          exFeatures3DB).2) ∧
     (2 ≤ (TempleFeaturesRepository.findNearest exGeo 0 0 ⟨none, none⟩ 2 2
        exFeatures3DB).2.totalPages →
      paginationInvariantHolds
        (TempleFeaturesRepository.findNearest exGeo 0 0 ⟨none, none⟩ 2 2
          exFeatures3DB).2)) :=
  ⟨by decide, by decide,
    C8_pagination_within_range exGeo ⟨none, none, none⟩ ⟨none, none⟩ 0 0 2 2
      exFeatures3DB (by decide) (by decide)⟩

/-! ## C6 — linear elevation interpolation on a LineString -/

theorem mapWithIndex_length {α β : Type} (f : ℕ → α → β) :
    ∀ (k : ℕ) (l : List α), (mapWithIndex f k l).length = l.length := by
  intro k l
  induction l generalizing k with
  | nil => rfl
  | cons a as ih => simp [mapWithIndex, ih]

theorem mapWithIndex_getElem {α β : Type} (f : ℕ → α → β) :
    ∀ (l : List α) (k i : ℕ) (h : i < l.length)
      (h2 : i < (mapWithIndex f k l).length),
      (mapWithIndex f k l)[i] = f (k + i) l[i] := by
  intro l
  induction l with
  | nil =>
    intro k i h h2
    exact absurd h (Nat.not_lt_zero i)
  | cons a as ih =>
    intro k i h h2
    cases i with
    | zero => simp [mapWithIndex]
    | succ j =>
      have hj : j < as.length := by simpa using h
      have hj2 : j < (mapWithIndex f (k + 1) as).length := by
        rw [mapWithIndex_length]
        exact hj
      have hstep : (mapWithIndex f k (a :: as))[j + 1]
          = (mapWithIndex f (k + 1) as)[j] := rfl
      rw [hstep, ih (k + 1) j hj hj2]
      have harith : k + 1 + j = k + (j + 1) := by omega
      rw [harith]
      simp

/-- C6: on a 2-D LineString with n ≥ 2 vertices none of which carries its
own elevation, and finite start and end elevations, `to3DGeometry`
interpolates: the z assigned to vertex i is exactly
`s + (e - s) * (i / (n - 1))`, so the first vertex receives exactly the
start elevation `s`, the last vertex exactly the end elevation `e`, and the
intermediate elevations are monotonic between them. -/
theorem C6_interpolation_endpoints_monotone
    (pts : List Coords) (s e : ℚ) (n : ℕ) (hlen : pts.length = n) (hn2 : 2 ≤ n)
    (hpts : ∀ i (h : i < pts.length),
      ∃ x y : ℚ, pts.get ⟨i, h⟩ = .arr [.leaf (.num x), .leaf (.num y)]) :
    ∃ outPts,
      to3DGeometry ⟨"LineString", .arr pts⟩
          { z := .undef, zStart := .num s, zEnd := .num e }
        = ⟨"LineString", .arr outPts⟩ ∧
      outPts.map vertexThird
        = (List.range n).map (fun i => some (.num (zlinear s e n i))) ∧
      zlinear s e n 0 = s ∧
      zlinear s e n (n - 1) = e ∧
      (∀ i j, i ≤ j → j < n →
        (s ≤ e → zlinear s e n i ≤ zlinear s e n j) ∧
        (e ≤ s → zlinear s e n j ≤ zlinear s e n i)) := by
  subst hlen
  cases pts with
  | nil => simp at hn2
  | cons a as =>
    cases as with
    | nil => simp at hn2
    | cons a2 as2 =>
      have hcast2 : (2 : ℚ) ≤ ((a :: a2 :: as2).length : ℚ) := by
        exact_mod_cast hn2
      have hdpos : (0 : ℚ) < ((a :: a2 :: as2).length : ℚ) - 1 := by linarith
      refine ⟨mapWithIndex (interpVertex s e (a :: a2 :: as2).length) 0
        (a :: a2 :: as2), ?_, ?_, ?_, ?_, ?_⟩
      · with_unfolding_all rfl
      · apply List.ext_get
        · simp [mapWithIndex_length]
        · intro i h1 h2
          have hi : i < (a :: a2 :: as2).length := by
            simpa [mapWithIndex_length] using h1
          have hi2 : i < (mapWithIndex
              (interpVertex s e (a :: a2 :: as2).length) 0
              (a :: a2 :: as2)).length := by
            rw [mapWithIndex_length]
            exact hi
          obtain ⟨x, y, hxy⟩ := hpts i hi
          have hxy2 : (a :: a2 :: as2)[i]
              = Coords.arr [.leaf (.num x), .leaf (.num y)] := hxy
          simp only [List.get_eq_getElem, List.getElem_map, List.getElem_range]
          rw [mapWithIndex_getElem _ _ _ _ hi hi2, hxy2]
          have hred : interpVertex s e (a :: a2 :: as2).length (0 + i)
              (.arr [.leaf (.num x), .leaf (.num y)])
              = .arr [.leaf (.num x), .leaf (.num y),
                  .leaf (.num (s + (e - s) *
                    ((i : ℚ) / (((a :: a2 :: as2).length : ℚ) - 1))))] := by
            simp only [Nat.zero_add]
            rfl
          rw [hred]
          rfl
      · simp [zlinear]
      · have h1n : 1 ≤ (a :: a2 :: as2).length := by simp
        rw [zlinear, Nat.cast_sub h1n]
        have hd : ((a :: a2 :: as2).length : ℚ) - 1 ≠ 0 := by linarith
        rw [Nat.cast_one, div_self hd]
        ring
      · intro i j hij hjn
        have hijq : (i : ℚ) ≤ (j : ℚ) := by exact_mod_cast hij
        have ht : (i : ℚ) / (((a :: a2 :: as2).length : ℚ) - 1)
            ≤ (j : ℚ) / (((a :: a2 :: as2).length : ℚ) - 1) :=
          (div_le_div_right hdpos).2 hijq
        constructor
        · intro hse
          have hmul := mul_le_mul_of_nonneg_left ht
            (by linarith : (0 : ℚ) ≤ e - s)
          unfold zlinear
          linarith
        · intro hes
          have hmul := mul_le_mul_of_nonneg_left ht
            (by linarith : (0 : ℚ) ≤ s - e)
          unfold zlinear
          nlinarith [hmul]

/-- C6 witness: a three-vertex 2-D line from elevation 10 to elevation 20
receives the interpolated elevations, with the endpoint and monotonicity
properties instantiated. -/
theorem C6_interpolation_witness :
    (exLinePts.length = 3 ∧ 2 ≤ 3 ∧
      (∀ i (h : i < exLinePts.length),
        ∃ x y : ℚ, exLinePts.get ⟨i, h⟩
          = .arr [.leaf (.num x), .leaf (.num y)])) ∧
    (∃ outPts,
      to3DGeometry ⟨"LineString", .arr exLinePts⟩
          { z := .undef, zStart := .num 10, zEnd := .num 20 }
        = ⟨"LineString", .arr outPts⟩ ∧
      outPts.map vertexThird
        = (List.range 3).map (fun i => some (.num (zlinear 10 20 3 i))) ∧
      zlinear 10 20 3 0 = 10 ∧
      zlinear 10 20 3 (3 - 1) = 20 ∧
      (∀ i j, i ≤ j → j < 3 →
        ((10 : ℚ) ≤ 20 → zlinear 10 20 3 i ≤ zlinear 10 20 3 j) ∧
        ((20 : ℚ) ≤ 10 → zlinear 10 20 3 j ≤ zlinear 10 20 3 i))) :=
  have hpts : ∀ i (h : i < exLinePts.length),
      ∃ x y : ℚ, exLinePts.get ⟨i, h⟩
        = .arr [.leaf (.num x), .leaf (.num y)] := by
    intro i h
    have h3 : i < 3 := h
    interval_cases i
    · exact ⟨0, 0, rfl⟩
    · exact ⟨1, 1, rfl⟩
    · exact ⟨2, 2, rfl⟩
  ⟨⟨rfl, by decide, hpts⟩,
    C6_interpolation_endpoints_monotone exLinePts 10 20 3 rfl (by decide) hpts⟩

/-! ## C10 — three components and zero elevation -/

theorem addZConst_arr_shape (es : List Coords) (z : JSVal) :
    ∃ l, addZConst (.arr es) z = .arr l := by
  unfold addZConst
  by_cases h : Coords.headIsNumber es = true
  · simp [h]
  · simp only [Bool.not_eq_true] at h
    simp [h]

theorem headIsNumber_addZConstList (cs : List Coords) (z : JSVal)
    (h : Coords.headIsNumber cs = false) :
    Coords.headIsNumber (addZConstList cs z) = false := by
  cases cs with
  | nil => rfl
  | cons c0 rest =>
    cases c0 with
    | leaf v =>
      simp only [Coords.headIsNumber] at h
      simp only [addZConstList, addZConst, Coords.headIsNumber]
      exact h
    | arr es =>
      obtain ⟨l, hl⟩ := addZConst_arr_shape es z
      simp only [addZConstList, hl, Coords.headIsNumber]

mutual
theorem addZConst_tuples3 (c : Coords) (hc : wfCoords c = true) (z : JSVal) :
    tuples3 (addZConst c z) = true := by
  cases c with
  | leaf v => simp [wfCoords] at hc
  | arr elems =>
    by_cases hh : Coords.headIsNumber elems = true
    · cases elems with
      | nil => simp [Coords.headIsNumber] at hh
      | cons e0 rest =>
        cases e0 with
        | arr es => simp [Coords.headIsNumber] at hh
        | leaf v =>
          simp only [Coords.headIsNumber] at hh
          simp only [addZConst, Coords.headIsNumber, hh, if_true]
          simp [tuples3, Coords.headIsNumber, hh]
    · simp only [Bool.not_eq_true] at hh
      have hc' : wfCoordsList elems = true := by
        simpa [wfCoords, hh] using hc
      have hpres := headIsNumber_addZConstList elems z hh
      simp only [addZConst, hh, Bool.false_eq_true, if_false]
      simp only [tuples3, hpres, Bool.false_eq_true, if_false]
      exact addZConstList_tuples3 elems hc' z

theorem addZConstList_tuples3 (cs : List Coords) (hc : wfCoordsList cs = true)
    (z : JSVal) : tuples3List (addZConstList cs z) = true := by
  cases cs with
  | nil => rfl
  | cons c0 rest =>
    simp only [wfCoordsList, Bool.and_eq_true] at hc
    simp only [addZConstList, tuples3List, Bool.and_eq_true]
    exact ⟨addZConst_tuples3 c0 hc.1 z, addZConstList_tuples3 rest hc.2 z⟩
end

theorem wfCoordsList_of_all_wfVertex (elems : List Coords)
    (h : elems.all wfVertex = true) : wfCoordsList elems = true := by
  induction elems with
  | nil => rfl
  | cons pt rest ih =>
    simp only [List.all_cons, Bool.and_eq_true] at h
    obtain ⟨hpt, hrest⟩ := h
    simp only [wfCoordsList, Bool.and_eq_true]
    refine ⟨?_, ih hrest⟩
    cases pt with
    | leaf v => simp [wfVertex] at hpt
    | arr ptElems =>
      simp only [wfVertex, Bool.and_eq_true] at hpt
      exact hpt.2

theorem wfCoords_of_all_wfVertex (elems : List Coords)
    (h : elems.all wfVertex = true) : wfCoords (.arr elems) = true := by
  cases elems with
  | nil => rfl
  | cons pt rest =>
    have hlist := wfCoordsList_of_all_wfVertex _ h
    simp only [List.all_cons, Bool.and_eq_true] at h
    cases pt with
    | leaf v => simp [wfVertex] at h
    | arr ptElems =>
      simpa [wfCoords, Coords.headIsNumber] using hlist

theorem interpVertex_arr_shape (z0 z1 : ℚ) (n i : ℕ) (pa : List Coords) :
    ∃ l, interpVertex z0 z1 n i (.arr pa) = .arr l := by
  unfold interpVertex
  by_cases h : pa.length < 2
  · simp [h]
  · simp [h]

theorem interp_tuples3_list (z0 z1 : ℚ) (n : ℕ) :
    ∀ (elems : List Coords) (k : ℕ), elems.all wfVertex = true →
      tuples3List (mapWithIndex (interpVertex z0 z1 n) k elems) = true := by
  intro elems
  induction elems with
  | nil =>
    intro k h
    rfl
  | cons pt rest ih =>
    intro k h
    simp only [List.all_cons, Bool.and_eq_true] at h
    obtain ⟨hpt, hrest⟩ := h
    simp only [mapWithIndex, tuples3List, Bool.and_eq_true]
    refine ⟨?_, ih (k + 1) hrest⟩
    cases pt with
    | leaf v => simp [wfVertex] at hpt
    | arr ptElems =>
      simp only [wfVertex, Bool.and_eq_true] at hpt
      obtain ⟨hhead, hwf⟩ := hpt
      have hlen : 2 ≤ ptElems.length := by
        simp only [wfCoords, hhead, if_true, Bool.and_eq_true,
          decide_eq_true_iff] at hwf
        exact hwf.2
      cases ptElems with
      | nil => simp [Coords.headIsNumber] at hhead
      | cons e0 r =>
        cases e0 with
        | arr es => simp [Coords.headIsNumber] at hhead
        | leaf v =>
          simp only [Coords.headIsNumber] at hhead
          have hnotlt : ¬ ((Coords.leaf v :: r).length < 2) := by
            simp only [List.length_cons] at hlen ⊢
            omega
          simp only [interpVertex, if_neg hnotlt]
          simp [tuples3, Coords.headIsNumber, hhead]

theorem headIsNumber_interp_cons (z0 z1 : ℚ) (n k : ℕ) (pa : List Coords)
    (rest : List Coords) :
    Coords.headIsNumber
      (mapWithIndex (interpVertex z0 z1 n) k (.arr pa :: rest)) = false := by
  obtain ⟨l, hl⟩ := interpVertex_arr_shape z0 z1 n k pa
  simp [mapWithIndex, hl, Coords.headIsNumber]

theorem interp_tuples3 (zStart zEnd : JSVal) (elems : List Coords)
    (h : elems.all wfVertex = true) :
    tuples3 (addZInterpolatedLine (.arr elems) zStart zEnd) = true := by
  cases elems with
  | nil => rfl
  | cons a rest =>
    cases a with
    | leaf v => simp [wfVertex] at h
    | arr pa =>
      simp only [addZInterpolatedLine]
      simp only [tuples3, headIsNumber_interp_cons, Bool.false_eq_true,
        if_false]
      exact interp_tuples3_list _ _ _ (.arr pa :: rest) 0 h

mutual
theorem addZConst_thirds_2D (c : Coords) (hc : wf2D c = true) :
    tupleThirds (addZConst c .undef)
      = List.replicate (tupleThirds c).length (some (.num 0)) := by
  cases c with
  | leaf v => simp [wf2D] at hc
  | arr elems =>
    by_cases hh : Coords.headIsNumber elems = true
    · have hc' : elems.all numericLeaf = true ∧ elems.length = 2 := by
        simpa [wf2D, hh, Bool.and_eq_true, decide_eq_true_iff] using hc
      obtain ⟨hall, hlen⟩ := hc'
      cases elems with
      | nil => simp at hlen
      | cons e0 r1 =>
        cases r1 with
        | nil => simp at hlen
        | cons e1 r2 =>
          cases r2 with
          | cons e2 r3 => simp at hlen
          | nil =>
            cases e0 with
            | arr es => simp [Coords.headIsNumber] at hh
            | leaf v =>
              simp only [Coords.headIsNumber] at hh
              simp only [addZConst, Coords.headIsNumber, hh, if_true]
              simp [tupleThirds, thirdOf, Coords.headIsNumber, hh, jsCoalesce]
    · simp only [Bool.not_eq_true] at hh
      have hc' : wf2DList elems = true := by simpa [wf2D, hh] using hc
      have hpres := headIsNumber_addZConstList elems .undef hh
      simp only [addZConst, hh, Bool.false_eq_true, if_false]
      simp only [tupleThirds, hpres, hh, Bool.false_eq_true, if_false]
      exact addZConstList_thirds_2D elems hc'

theorem addZConstList_thirds_2D (cs : List Coords) (hc : wf2DList cs = true) :
    tupleThirdsList (addZConstList cs .undef)
      = List.replicate (tupleThirdsList cs).length (some (.num 0)) := by
  cases cs with
  | nil => rfl
  | cons c0 rest =>
    simp only [wf2DList, Bool.and_eq_true] at hc
    simp only [addZConstList, tupleThirdsList]
    rw [addZConst_thirds_2D c0 hc.1, addZConstList_thirds_2D rest hc.2,
      List.length_append, List.replicate_add]
end

/-- C10 counterexample: a supplied altitude that is not a finite number is
written through as the z-coordinate rather than replaced by 0 — on a 2-D
point, `z = NaN` produces the third coordinate `NaN`, not `0`
(`??` only replaces `undefined`/`null`). -/
theorem C10_nan_altitude_counterexample :
    to3DGeometry exPointGeom { z := .nan, zStart := .undef, zEnd := .undef }
      = { type := "Point",
          coordinates := .arr [.leaf (.num 1), .leaf (.num 2), .leaf .nan] } ∧
    JSVal.nan ≠ JSVal.num 0 := by
  constructor
  · with_unfolding_all rfl
  · decide

/-- C10 amended: (1) for every shape-correct GeoJSON geometry with a
non-empty type, `to3DGeometry` returns coordinates in which every
coordinate tuple has exactly three components, whatever elevation options
are supplied; (2) when no elevation argument is supplied (`undefined`) and
no vertex carries its own third component (a strictly 2-D geometry), every
tuple's third coordinate is the constant 0; but a supplied non-finite
altitude (`NaN`/`Infinity`) is written through rather than replaced by 0. -/
theorem C10_three_components_zero_fill :
    (∀ (geom : Geometry) (opts : ZOpts), wfGeometry geom = true →
      tuples3 ((to3DGeometry geom opts).coordinates) = true) ∧
    (∀ geom : Geometry, geom.type ≠ "" → wf2D geom.coordinates = true →
      tupleThirds ((to3DGeometry geom
          { z := .undef, zStart := .undef, zEnd := .undef }).coordinates)
        = List.replicate (tupleCount geom.coordinates) (some (.num 0))) := by
  constructor
  · rintro ⟨t, c⟩ opts hw
    simp only [wfGeometry, Bool.and_eq_true, decide_eq_true_iff] at hw
    obtain ⟨ht, hshape⟩ := hw
    by_cases hP : t = "Point"
    · subst hP
      simp only [if_true, reduceIte] at hshape
      cases c with
      | leaf v => simp [wfVertex] at hshape
      | arr elems =>
        have hwc : wfCoords (.arr elems) = true := by
          simp only [wfVertex, Bool.and_eq_true] at hshape
          exact hshape.2
        simp [to3DGeometry, Coords.isTruthy]
        exact addZConst_tuples3 _ hwc _
    · by_cases hL : t = "LineString"
      · subst hL
        rw [if_neg hP, if_pos rfl] at hshape
        cases c with
        | leaf v => simp at hshape
        | arr elems =>
          by_cases hf : (opts.zStart.isFinite = true) ∨ (opts.zEnd.isFinite = true)
          · simp [to3DGeometry, Coords.isTruthy, hf]
            exact interp_tuples3 _ _ _ hshape
          · simp [to3DGeometry, Coords.isTruthy, hf]
            exact addZConst_tuples3 _ (wfCoords_of_all_wfVertex _ hshape) _
      · rw [if_neg hP, if_neg hL] at hshape
        have hct : Coords.isTruthy c = true := by
          cases c with
          | leaf v => simp [wfCoords] at hshape
          | arr _ => rfl
        simp [to3DGeometry, ht, hP, hL, hct]
        exact addZConst_tuples3 _ hshape _
  · rintro ⟨t, c⟩ ht hw
    cases c with
    | leaf v => simp [wf2D] at hw
    | arr elems =>
      have key := addZConst_thirds_2D (.arr elems) hw
      unfold tupleCount
      by_cases hP : t = "Point"
      · simp only [to3DGeometry]
        simp [ht, hP, Coords.isTruthy]
        exact key
      · by_cases hL : t = "LineString"
        · simp only [to3DGeometry]
          simp [ht, hP, hL, Coords.isTruthy, JSVal.isFinite]
          exact key
        · simp only [to3DGeometry]
          simp [ht, hP, hL, Coords.isTruthy]
          exact key

/-- C10 witness: the 2-D point geometry is well formed; its image has
three-component tuples and third coordinate 0 when no elevation is
supplied. -/
theorem C10_three_components_zero_fill_witness :
    wfGeometry exPointGeom = true ∧
    tuples3 ((to3DGeometry exPointGeom
      { z := .undef, zStart := .undef, zEnd := .undef }).coordinates) = true ∧
    exPointGeom.type ≠ "" ∧
    wf2D exPointGeom.coordinates = true ∧
    tupleThirds ((to3DGeometry exPointGeom
        { z := .undef, zStart := .undef, zEnd := .undef }).coordinates)
      = List.replicate (tupleCount exPointGeom.coordinates)
          (some (.num 0)) :=
  have h1 : wfGeometry exPointGeom = true := by with_unfolding_all decide
  have h2 : exPointGeom.type ≠ "" := by decide
  have h3 : wf2D exPointGeom.coordinates = true := by with_unfolding_all decide
  ⟨h1, C10_three_components_zero_fill.1 exPointGeom
      { z := .undef, zStart := .undef, zEnd := .undef } h1,
    h2, h3, C10_three_components_zero_fill.2 exPointGeom h2 h3⟩
